import Mathlib

/-!
Verification development for the web-scraping core of this repository.

The program under study has two components plus an export helper:

* `WebScrapingBot.scrape_webpage` (web_scraping_bot.py, lines 51-121): a
  bounded-retry fetch loop with status-aware branching, backoff sleeps and
  session teardown on exhaustion.  It is embedded below as a deterministic
  state-machine `scrapeGo`/`scrapeWebpage` over an environment giving the HTTP
  status and body observed on each attempt and the jitter drawn for each
  backoff sleep.  Exceptions become values of `FetchErr`; `await`/`sleep`
  become entries of a recorded delay list.

* `WebScrapingBot._extract_main_content` (lines 123-264): a pure extraction
  from a parsed document tree to a structured record, wrapped in a single
  try/except that degrades to an all-empty record.  The document tree (the
  BeautifulSoup parse) is embedded as the inductive `Node`; the individual
  facet extractions are translated function by function.  The try/except
  control structure is embedded separately as `extractMainContent` over an
  `ExtractRun` whose fields are the possibly-faulting facet computations.

* `ScrapingChatbot._flatten_dict` (scraper.py, lines 146-162): recursive
  flattening of a nested dict, embedded as `flattenAny` over a deep-embedded
  Python value type `JVal`; a Python `AttributeError` (calling `.items()` on a
  non-dict) becomes `Except.error`.
-/

namespace WSBot

/-! ## Python string helpers -/

/-- Python `str.strip()` whitespace class (`\s` of the `re` module as well):
space, tab, newline, carriage return, vertical tab, form feed. -/
def isPySpace (c : Char) : Bool :=
  c == ' ' || c == '\t' || c == '\n' || c == '\r' || c == '\x0b' || c == '\x0c'

/-- Python `str.strip()` on a character list. -/
def pyStripChars (s : List Char) : List Char :=
  ((s.dropWhile isPySpace).reverse.dropWhile isPySpace).reverse

/-- Python `str.strip()` on a string. -/
def pyStrip (s : String) : String := (pyStripChars s.toList).asString

/-! ## Fetch engine: `WebScrapingBot.scrape_webpage` -/

/-- The exceptions that can be recorded by one attempt of the retry loop in
`scrape_webpage`:
* `emptyResponse`: the `Exception("Received empty response from server")`
  raised on a 200 status with blank body (line 81);
* `persistentServerError`: the `aiohttp.ClientError("Persistent server error
  (500) after {max_retries} attempts")` raised on a 500 on the final attempt
  (line 85) — the spec's `ServerError` kind;
* `clientError`: the `aiohttp.ClientError("Client error: {status} - ...")`
  raised at line 93 — the spec's `ClientError` kind;
* `httpStatusError`: the `aiohttp.ClientResponseError` raised by
  `response.raise_for_status()` (line 96);
* `noData`: the `Exception("Failed to scrape webpage after all retries")`
  raised after the loop when no attempt recorded an exception (line 121). -/
inductive FetchErr where
  | emptyResponse : FetchErr
  | persistentServerError : Nat → FetchErr
  | clientError : Nat → FetchErr
  | httpStatusError : Nat → FetchErr
  | noData : FetchErr
deriving DecidableEq

/-- What a single attempt (the body of the `try` at lines 57-96) does once the
response status is known: return content, raise an exception, or fall through
the status dispatch without raising (a non-200 status below 400, for which
`raise_for_status` is a no-op). -/
inductive AttemptOut where
  | success : String → AttemptOut
  | raised : FetchErr → AttemptOut
  | fellThrough : AttemptOut
deriving DecidableEq

/-- Status dispatch of one attempt, translated from lines 75-96.  `isLast` is
`retries == max_retries - 1`.  Note that status 403 is intercepted by the
`status in [403, 429]` branch (line 86) before the `status in [404, 401, 403]`
check (line 92) can see it, exactly as in the source. -/
def attemptOut (status : Nat) (body : String) (isLast : Bool) (maxRetries : Nat) : AttemptOut :=
  if status = 200 then
    if pyStrip body ≠ "" then .success body else .raised .emptyResponse
  else if status = 500 then
    if isLast then .raised (.persistentServerError maxRetries)
    else .raised (.httpStatusError 500)
  else if status = 403 ∨ status = 429 then
    .raised (.httpStatusError status)
  else if 400 ≤ status then
    if status = 404 ∨ status = 401 ∨ status = 403 then .raised (.clientError status)
    else .raised (.httpStatusError status)
  else
    .fellThrough

/-- The environment one fetch run observes: the HTTP status and body text of
attempt `i` (0-indexed), and the value `random.uniform(0, 1)` drawn for the
backoff sleep before attempt `i`. -/
structure FetchEnv where
  statuses : Nat → Nat
  bodies : Nat → String
  u : Nat → ℚ

/-- Mutable state of the retry loop of `scrape_webpage`: the `retries` counter,
the `last_exception` slot, whether the pooled `aiohttp` session is currently
open, plus instrumentation (number of GET attempts issued so far and the sleep
durations executed so far, in seconds, in chronological order). -/
structure LoopState where
  retries : Nat
  last : Option FetchErr
  sessionOpen : Bool
  attempts : Nat
  delays : List ℚ

/-- Result of a whole `scrape_webpage` call: the returned content or the raised
exception, with the instrumentation of the run. -/
structure FetchTrace where
  result : Except FetchErr String
  attempts : Nat
  delays : List ℚ
  sessionOpen : Bool

/-- The `finally` block at lines 107-115: increment `retries`; if this was the
final iteration and an exception was recorded, close the pooled session. -/
def finallyStep (maxRetries : Nat) (st : LoopState) : LoopState :=
  { st with
    retries := st.retries + 1,
    sessionOpen :=
      if st.retries + 1 = maxRetries ∧ st.last ≠ none then false else st.sessionOpen }

/-- The `while retries < max_retries` loop of `scrape_webpage`, by recursion on
the number of remaining iterations.  Each iteration: (re)open the session if
closed, sleep `2 ** retries + uniform(0, 1)` when `retries > 0`, issue the GET,
dispatch on the status (with the extra `10 + 5 * retries` cooldown sleep for
403/429 at line 89), record any exception in `last_exception`, and run the
`finally` block.  After the loop, raise `last_exception` if set, else the
generic failure (lines 117-121). -/
def scrapeGo (env : FetchEnv) (maxRetries : Nat) : Nat → LoopState → FetchTrace
  | 0, st =>
      { result := .error (st.last.getD .noData), attempts := st.attempts,
        delays := st.delays, sessionOpen := st.sessionOpen }
  | rem + 1, st =>
      let status := env.statuses st.retries
      let stPre : LoopState :=
        { retries := st.retries, last := st.last, sessionOpen := true,
          attempts := st.attempts + 1,
          delays :=
            (st.delays ++ (if 0 < st.retries
              then [2 ^ st.retries + env.u st.retries] else [])) ++
            (if status = 403 ∨ status = 429
              then [(10 : ℚ) + 5 * (st.retries : ℚ)] else []) }
      match attemptOut status (env.bodies st.retries) (st.retries + 1 = maxRetries) maxRetries with
      | .success body =>
          let stF := finallyStep maxRetries stPre
          { result := .ok body, attempts := stF.attempts,
            delays := stF.delays, sessionOpen := stF.sessionOpen }
      | .raised e =>
          scrapeGo env maxRetries rem (finallyStep maxRetries { stPre with last := some e })
      | .fellThrough =>
          scrapeGo env maxRetries rem (finallyStep maxRetries stPre)

/-- `scrape_webpage(url, max_retries)`: run the loop from the initial state
(`retries = 0`, no recorded exception, session not yet created). -/
def scrapeWebpage (env : FetchEnv) (maxRetries : Nat) : FetchTrace :=
  scrapeGo env maxRetries maxRetries
    { retries := 0, last := none, sessionOpen := false, attempts := 0, delays := [] }

/-! ## Document trees: the BeautifulSoup parse of the markup

`Node` represents both a parsed node and a sibling chain of parsed nodes (the
`ncons`/`nnil` constructors), so that every traversal is a single structural
recursion.  A document is the chain of top-level nodes of the soup. -/

inductive Node where
  | ntext : String → Node
  | nnil : Node
  | ncons : Node → Node → Node
  | elem : String → List (String × String) → Node → Node
deriving DecidableEq

/-- Concatenated text of all text nodes of a subtree, in document order:
BeautifulSoup `get_text()`. -/
def nodesText : Node → List Char
  | .ntext s => s.toList
  | .nnil => []
  | .ncons n rest => nodesText n ++ nodesText rest
  | .elem _ _ cs => nodesText cs

/-- `tag.get_text().strip()`, the idiom used throughout `_extract_main_content`. -/
def strippedText (n : Node) : String := (pyStripChars (nodesText n)).asString

/-- All descendant elements whose tag is in `tags`, in document order:
`find_all([...])` applied to a sibling chain.  An element precedes its own
descendants, as in BeautifulSoup. -/
def findAllTags (tags : List String) : Node → List Node
  | .ntext _ => []
  | .nnil => []
  | .ncons n rest => findAllTags tags n ++ findAllTags tags rest
  | .elem t a cs => (if t ∈ tags then [Node.elem t a cs] else []) ++ findAllTags tags cs

/-- Children chain of an element (used for `tag.find_all(...)`, which searches
only the tag's descendants, not the tag itself). -/
def childNodes : Node → Node
  | .elem _ _ cs => cs
  | _ => .nnil

/-- `soup(['script', 'style', 'iframe', 'noscript'])` + `element.decompose()`
(lines 129-130): remove every subtree rooted at one of the given tags. -/
def stripNodes (bad : List String) : Node → Node
  | .ntext s => .ntext s
  | .nnil => .nnil
  | .elem t a cs => .elem t a (stripNodes bad cs)
  | .ncons (.elem t a cs) rest =>
      if t ∈ bad then stripNodes bad rest
      else .ncons (.elem t a (stripNodes bad cs)) (stripNodes bad rest)
  | .ncons n rest => .ncons (stripNodes bad n) (stripNodes bad rest)

/-- BeautifulSoup `tag.string`: the contained string if the node is a text node
or an element with exactly one child, recursively; `None` otherwise. -/
def nodeString : Node → Option String
  | .ntext s => some s
  | .elem _ _ (.ncons c .nnil) => nodeString c
  | _ => none

/-- Attribute lookup on an element (`tag['href']`, `tag.get('content', '')`). -/
def attrGet (n : Node) (key : String) : Option String :=
  match n with
  | .elem _ attrs _ => (attrs.find? (fun p => p.1 == key)).map (·.2)
  | _ => none

/-- `str(soup)`: re-serialization of the document, the text that the contact
regexes are run against (lines 221 and 226). -/
def renderNodes : Node → List Char
  | .ntext s => s.toList
  | .nnil => []
  | .ncons n rest => renderNodes n ++ renderNodes rest
  | .elem t a cs =>
      '<' :: (t.toList ++
        (a.foldl (fun acc p =>
          acc ++ ' ' :: (p.1.toList ++ '=' :: '"' :: (p.2.toList ++ ['"']))) []) ++
        '>' :: (renderNodes cs ++ '<' :: '/' :: (t.toList ++ ['>'])))

/-! ## A small backtracking regex engine for the two `re.findall` patterns

Python `re` semantics for the contact patterns: leftmost match, greedy
single-character-class quantifiers with backtracking.  `Tok.one p` matches one
character of class `p`; `Tok.optc p` is `p?` (greedy); `Tok.rep n p` is
`p{n,}` (greedy).  The matcher is fuelled so that it is structurally recursive;
one unit of fuel is spent per call, and every call shrinks the input or the
token list, so `length input + length tokens + 1` units always suffice. -/

inductive Tok where
  | one : (Char → Bool) → Tok
  | optc : (Char → Bool) → Tok
  | rep : Nat → (Char → Bool) → Tok

/-- Backtracking matcher: the number of characters consumed by the leftmost
greedy match of the token list at the start of the input, if any. -/
def matchToksF : Nat → List Tok → List Char → Option Nat
  | 0, _, _ => none
  | _ + 1, [], _ => some 0
  | _ + 1, Tok.one _ :: _, [] => none
  | fuel + 1, Tok.one p :: ts, c :: rest =>
      if p c then (matchToksF fuel ts rest).map (· + 1) else none
  | fuel + 1, Tok.optc _ :: ts, [] => matchToksF fuel ts []
  | fuel + 1, Tok.optc p :: ts, c :: rest =>
      if p c then
        match matchToksF fuel ts rest with
        | some n => some (n + 1)
        | none => matchToksF fuel ts (c :: rest)
      else matchToksF fuel ts (c :: rest)
  | fuel + 1, Tok.rep low _ :: ts, [] =>
      if low = 0 then matchToksF fuel ts [] else none
  | fuel + 1, Tok.rep 0 p :: ts, c :: rest =>
      if p c then
        match matchToksF fuel (Tok.rep 0 p :: ts) rest with
        | some n => some (n + 1)
        | none => matchToksF fuel ts (c :: rest)
      else matchToksF fuel ts (c :: rest)
  | fuel + 1, Tok.rep (low + 1) p :: ts, c :: rest =>
      if p c then (matchToksF fuel (Tok.rep low p :: ts) rest).map (· + 1) else none

def toksLen : List Tok → Nat
  | [] => 0
  | _ :: ts => 1 + toksLen ts

def matchToks (ts : List Tok) (s : List Char) : Option Nat :=
  matchToksF (s.length + toksLen ts + 1) ts s

/-- `re.findall`: scan left to right, emitting each non-overlapping match and
resuming after it; on failure advance one character.  (The patterns used here
cannot match the empty string.) -/
def reFindAllF : Nat → List Tok → List Char → List (List Char)
  | 0, _, _ => []
  | _ + 1, _, [] => []
  | fuel + 1, ts, c :: rest =>
      match matchToks ts (c :: rest) with
      | some n =>
          if n = 0 then reFindAllF fuel ts rest
          else ((c :: rest).take n) :: reFindAllF fuel ts ((c :: rest).drop n)
      | none => reFindAllF fuel ts rest

def reFindAll (ts : List Tok) (s : List Char) : List (List Char) :=
  reFindAllF (s.length + 1) ts s

/-- `[a-zA-Z0-9._%+-]` — local part class of the email pattern (line 220). -/
def emailLocalChar (c : Char) : Bool :=
  c.isAlpha || c.isDigit || c == '.' || c == '_' || c == '%' || c == '+' || c == '-'

/-- `[a-zA-Z0-9.-]` — domain class of the email pattern. -/
def emailDomainChar (c : Char) : Bool := c.isAlpha || c.isDigit || c == '.' || c == '-'

/-- `[a-zA-Z0-9._%+-]+@[a-zA-Z0-9.-]+\.[a-zA-Z]{2,}` (line 220). -/
def emailToks : List Tok :=
  [Tok.rep 1 emailLocalChar, Tok.one (fun c => c == '@'), Tok.rep 1 emailDomainChar,
   Tok.one (fun c => c == '.'), Tok.rep 2 Char.isAlpha]

/-- `[\d\s-]` — the loose phone class (line 225). -/
def phoneChar (c : Char) : Bool := c.isDigit || isPySpace c || c == '-'

/-- `\+?[\d\s-]{10,}` (line 225). -/
def phoneToks : List Tok := [Tok.optc (fun c => c == '+'), Tok.rep 10 phoneChar]

/-! ## Content extractor facets (lines 132-249), over the stripped document -/

structure LinkRec where
  url : String
  text : String
deriving DecidableEq

structure ListsRec where
  ordered : List (List String)
  unordered : List (List String)
deriving DecidableEq

structure TableRec where
  headers : List String
  data : List (List String)
deriving DecidableEq

structure ContactInfo where
  emails : List String
  phones : List String
  addresses : List String
deriving DecidableEq

/-- Lines 132-136: first `<title>` element; `title_tag.string.strip()` if
`title_tag.string` is truthy, else the empty string. -/
def extractTitle (d : Node) : String :=
  match (findAllTags ["title"] d).head? with
  | none => ""
  | some tnode =>
      match nodeString tnode with
      | some s => if s ≠ "" then pyStrip s else ""
      | none => ""

/-- Lines 138-142: `content` attribute of the first
`<meta name="description">`, with default `''`, stripped. -/
def extractMetaDescription (d : Node) : String :=
  match ((findAllTags ["meta"] d).filter
      (fun m => attrGet m "name" == some "description")).head? with
  | none => ""
  | some m => pyStrip ((attrGet m "content").getD "")

/-- Lines 144-149: for each level 1-6 with at least one `h{i}` element, the
non-empty stripped heading texts, keyed by `str(i)`. -/
def extractHeadings (d : Node) : List (String × List String) :=
  ([1, 2, 3, 4, 5, 6] : List Nat).foldl (fun acc i =>
    let hTags := findAllTags ["h" ++ toString i] d
    if hTags ≠ [] then
      acc ++ [(toString i, (hTags.map strippedText).filter (fun t => t != ""))]
    else acc) []

/-- Lines 151-156: stripped text of every `<p>` that is non-empty and longer
than 20 characters, in document order. -/
def extractParagraphs (d : Node) : List String :=
  (findAllTags ["p"] d).foldl (fun acc p =>
    if strippedText p ≠ "" ∧ 20 < (strippedText p).length
    then acc ++ [strippedText p] else acc) []

/-- Lines 158-167: every `<a href>` with non-empty href not starting with `#`
and non-empty anchor text. -/
def extractLinks (d : Node) : List LinkRec :=
  (findAllTags ["a"] d).foldl (fun acc a =>
    match attrGet a "href" with
    | none => acc
    | some href =>
        let text := strippedText a
        if href ≠ "" ∧ text ≠ "" ∧ href.toList.head? ≠ some '#'
        then acc ++ [⟨href, text⟩] else acc) []

/-- The non-empty stripped `<li>` texts of one list element (lines 177, 183). -/
def listItems (l : Node) : List String :=
  ((findAllTags ["li"] (childNodes l)).map strippedText).filter (fun t => t != "")

/-- Lines 169-185: item sequences of the `<ol>`/`<ul>` elements that have at
least one non-empty item. -/
def extractLists (d : Node) : ListsRec :=
  { ordered := ((findAllTags ["ol"] d).map listItems).filter (fun i => !i.isEmpty),
    unordered := ((findAllTags ["ul"] d).map listItems).filter (fun i => !i.isEmpty) }

/-- Lines 187-210: for each `<table>`, headers from the first `<thead>`'s
`th`/`td` cells (if any `<thead>`), and one data row for every `<tr>` with at
least one `td`/`th` cell — note `table.find_all('tr')` also returns the row
inside `<thead>`.  Tables whose `table_data` is empty are skipped. -/
def tableHeaders (table : Node) : List String :=
  match (findAllTags ["thead"] (childNodes table)).head? with
  | none => []
  | some hr => (findAllTags ["th", "td"] (childNodes hr)).map strippedText

def tableRowsData (table : Node) : List (List String) :=
  (findAllTags ["tr"] (childNodes table)).foldl (fun racc row =>
    if findAllTags ["td", "th"] (childNodes row) ≠ []
    then racc ++ [(findAllTags ["td", "th"] (childNodes row)).map strippedText]
    else racc) []

def extractTables (d : Node) : List TableRec :=
  (findAllTags ["table"] d).foldl (fun acc table =>
    if tableRowsData table ≠ []
    then acc ++ [⟨tableHeaders table, tableRowsData table⟩] else acc) []

/-- Lines 212-227: emails found in `str(soup)` and deduplicated via
`list(set(...))` (modelled by `List.dedup`); phones filtered by ≥ 10 digits and
stripped, with no deduplication; addresses always empty. -/
def extractContactInfo (d : Node) : ContactInfo :=
  let s := renderNodes d
  { emails := ((reFindAll emailToks s).map List.asString).dedup,
    phones := ((reFindAll phoneToks s).filter
        (fun p => decide (10 ≤ (p.filter Char.isDigit).length))).map
        (fun p => (pyStripChars p).asString),
    addresses := [] }

/-- Lines 229-238 and 249: lower-cased hrefs of anchors whose href contains one
of the social host substrings, deduplicated via `list(set(...))`. -/
def socialHosts : List (List Char) :=
  ["facebook.com".toList, "twitter.com".toList, "linkedin.com".toList,
   "instagram.com".toList, "youtube.com".toList, "github.com".toList,
   "pinterest.com".toList]

def isSubChars (pat : List Char) : List Char → Bool
  | [] => pat.isEmpty
  | c :: rest => pat.isPrefixOf (c :: rest) || isSubChars pat rest

def extractSocialLinks (d : Node) : List String :=
  ((findAllTags ["a"] d).foldl (fun acc a =>
    match attrGet a "href" with
    | none => acc
    | some href =>
        let h := href.toList.map Char.toLower
        if socialHosts.any (fun pat => isSubChars pat h)
        then acc ++ [h.asString] else acc) []).dedup

/-! ## The extraction record and the try/except fault boundary -/

structure ContentRecord where
  title : String
  meta_description : String
  headings : List (String × List String)
  paragraphs : List String
  links : List LinkRec
  lists : ListsRec
  tables : List TableRec
  contact_info : ContactInfo
  social_links : List String
deriving DecidableEq

/-- The record returned by the `except` branch at lines 252-264: every field at
its documented empty value. -/
def emptyRecord : ContentRecord :=
  { title := "", meta_description := "", headings := [], paragraphs := [],
    links := [], lists := ⟨[], []⟩, tables := [],
    contact_info := ⟨[], [], []⟩, social_links := [] }

/-- One run of the body of the `try` block of `_extract_main_content`, as the
sequence of its facet computations.  Each step may fault (`Except.error`),
modelling an internal library exception inside that facet's code; `parseStep`
models the `BeautifulSoup(...)` construction itself. -/
structure ExtractRun where
  parseStep : Except String Unit
  titleStep : Except String String
  metaStep : Except String String
  headingsStep : Except String (List (String × List String))
  paragraphsStep : Except String (List String)
  linksStep : Except String (List LinkRec)
  listsStep : Except String ListsRec
  tablesStep : Except String (List TableRec)
  contactStep : Except String ContactInfo
  socialStep : Except String (List String)

/-- The `try` body: run all facet steps in source order; the first fault aborts
the whole body (Python exception propagation to the enclosing handler). -/
def buildRecord (r : ExtractRun) : Except String ContentRecord := do
  let _ ← r.parseStep
  let t ← r.titleStep
  let m ← r.metaStep
  let h ← r.headingsStep
  let p ← r.paragraphsStep
  let l ← r.linksStep
  let ls ← r.listsStep
  let tb ← r.tablesStep
  let ci ← r.contactStep
  let so ← r.socialStep
  Except.ok ⟨t, m, h, p, l, ls, tb, ci, so⟩

/-- `_extract_main_content`: the single try/except of lines 125-264 — any fault
anywhere in the body yields the all-empty record; no exception escapes. -/
def extractMainContent (r : ExtractRun) : ContentRecord :=
  match buildRecord r with
  | .ok r0 => r0
  | .error _ => emptyRecord

def exErr {α : Type} : Except String α → Bool
  | .error _ => true
  | .ok _ => false

/-- Some facet step of the run faulted. -/
def runHasFault (r : ExtractRun) : Bool :=
  exErr r.parseStep || exErr r.titleStep || exErr r.metaStep || exErr r.headingsStep ||
  exErr r.paragraphsStep || exErr r.linksStep || exErr r.listsStep || exErr r.tablesStep ||
  exErr r.contactStep || exErr r.socialStep

def badTags : List String := ["script", "style", "iframe", "noscript"]

/-- The fault-free run on a given parsed document: every facet computed by its
translated extraction function over the stripped document. -/
def runOf (d : Node) : ExtractRun :=
  let s := stripNodes badTags d
  { parseStep := .ok (), titleStep := .ok (extractTitle s),
    metaStep := .ok (extractMetaDescription s), headingsStep := .ok (extractHeadings s),
    paragraphsStep := .ok (extractParagraphs s), linksStep := .ok (extractLinks s),
    listsStep := .ok (extractLists s), tablesStep := .ok (extractTables s),
    contactStep := .ok (extractContactInfo s), socialStep := .ok (extractSocialLinks s) }

/-- `_extract_main_content` applied to a document whose facet extractions all
run without an internal library fault. -/
def extractFromDoc (d : Node) : ContentRecord := extractMainContent (runOf d)

/-! ## Export flattening: `ScrapingChatbot._flatten_dict` (scraper.py 146-162)

`JVal` deep-embeds the Python values reachable by `_flatten_dict`: strings,
ints, dicts (as `objCons` key/value chains) and lists (as `arrCons` chains). -/

inductive JVal where
  | jstr : String → JVal
  | jint : Int → JVal
  | objNil : JVal
  | objCons : String → JVal → JVal → JVal
  | arrNil : JVal
  | arrCons : JVal → JVal → JVal
deriving DecidableEq

def isObj : JVal → Bool
  | .objNil => true
  | .objCons _ _ _ => true
  | _ => false

def isArr : JVal → Bool
  | .arrNil => true
  | .arrCons _ _ => true
  | _ => false

def isScalar : JVal → Bool
  | .jstr _ => true
  | .jint _ => true
  | _ => false

def arrAll (p : JVal → Bool) : JVal → Bool
  | .arrCons x xs => p x && arrAll p xs
  | _ => true

def arrToList : JVal → List JVal
  | .arrCons x xs => x :: arrToList xs
  | _ => []

/-- Python `str(v)` as used by `', '.join(map(str, v))`; only the scalar cases
are ever exercised by the theorems below. -/
def pyStrJ : JVal → String
  | .jstr s => s
  | .jint n => toString n
  | .objNil => "{}"
  | .objCons _ _ _ => "{...}"
  | .arrNil => "[]"
  | .arrCons _ _ => "[...]"

/-- `', '.join(map(str, v))` (line 159). -/
def commaJoin (vs : List JVal) : String := String.intercalate ", " (vs.map pyStrJ)

/-- `f"{parent_key}{sep}{k}" if parent_key else k` with the default `sep='_'`
(line 150). -/
def joinKey (parent k : String) : String := if parent = "" then k else parent ++ "_" ++ k

/-- `_flatten_dict(d, parent_key)` with the list iteration of lines 156-157
inlined: on an `objCons` chain it is the `for k, v in d.items()` loop; on an
`arrCons` chain it is the `for i, item in enumerate(v)` loop (the `String` is
then `new_key` and the `Nat` the running index).  Calling it on a non-dict
value — which the source does whenever a list's first element is a dict but a
later element is not — models Python's `AttributeError` from `item.items()`
and yields `Except.error`.  The resulting association list is the `items` list
of line 148-161; the final `dict(items)` of line 162 only collapses duplicate
keys and is applied by `toPyDict`. -/
def flattenAny : JVal → String → Nat → Except String (List (String × JVal))
  | .objNil, _, _ => Except.ok []
  | .objCons k v rest, parent, _ =>
      let newKey := if parent = "" then k else parent ++ "_" ++ k
      let head : Except String (List (String × JVal)) :=
        match v with
        | .objNil => flattenAny v newKey 0
        | .objCons _ _ _ => flattenAny v newKey 0
        | .arrNil => Except.ok [(newKey, JVal.jstr (commaJoin (arrToList v)))]
        | .arrCons x _ =>
            if isObj x then flattenAny v newKey 0
            else Except.ok [(newKey, JVal.jstr (commaJoin (arrToList v)))]
        | .jstr s => Except.ok [(newKey, JVal.jstr s)]
        | .jint n => Except.ok [(newKey, JVal.jint n)]
      head.bind (fun a => (flattenAny rest parent 0).map (fun b => a ++ b))
  | .arrNil, _, _ => Except.ok []
  | .arrCons x xs, key, i =>
      match x with
      | .objNil =>
          (flattenAny x (key ++ "_" ++ toString i) 0).bind (fun a =>
            (flattenAny xs key (i + 1)).map (fun b => a ++ b))
      | .objCons _ _ _ =>
          (flattenAny x (key ++ "_" ++ toString i) 0).bind (fun a =>
            (flattenAny xs key (i + 1)).map (fun b => a ++ b))
      | _ => Except.error "AttributeError: object has no attribute items"
  | .jstr _, _, _ => Except.error "AttributeError: object has no attribute items"
  | .jint _, _, _ => Except.error "AttributeError: object has no attribute items"

/-- `dict(items)` (line 162): first-occurrence key order, last value wins. -/
def toPyDict (items : List (String × JVal)) : List (String × JVal) :=
  items.foldl (fun acc kv =>
    if acc.any (fun p => p.1 == kv.1)
    then acc.map (fun p => if p.1 == kv.1 then kv else p)
    else acc ++ [kv]) []

/-- The whole `_flatten_dict(d, parent_key='')` call. -/
def flattenDict (d : JVal) (parent : String) : Except String (List (String × JVal)) :=
  (flattenAny d parent 0).map toPyDict

def listToArr : List JVal → JVal
  | [] => .arrNil
  | v :: vs => .arrCons v (listToArr vs)

/-! ## Concrete documents and runs used by the theorems -/

/-- Build a sibling chain from a list of nodes. -/
def chain : List Node → Node
  | [] => .nnil
  | n :: ns => .ncons n (chain ns)

/-- The parse of `<p>short</p><p>this paragraph has more than twenty
characters</p>`. -/
def paraDoc : Node :=
  chain [.elem "p" [] (chain [.ntext "short"]),
         .elem "p" [] (chain [.ntext "this paragraph has more than twenty characters"])]

/-- The parse of `<p>Contact us at a@b.com or a@b.com again</p>`. -/
def emailDoc : Node :=
  chain [.elem "p" [] (chain [.ntext "Contact us at a@b.com or a@b.com again"])]

/-- The parse of `<p>Call 1234567890 or 1234567890 now</p>` — the same phone
number written twice. -/
def phoneDoc : Node :=
  chain [.elem "p" [] (chain [.ntext "Call 1234567890 or 1234567890 now"])]

/-- The parse of a table with a `<thead>` of two `<th>` cells and two `<tr>`
data rows. -/
def tableDoc : Node :=
  chain [.elem "table" []
    (chain [.elem "thead" []
        (chain [.elem "tr" []
          (chain [.elem "th" [] (chain [.ntext "A"]),
                  .elem "th" [] (chain [.ntext "B"])])]),
      .elem "tr" []
        (chain [.elem "td" [] (chain [.ntext "1"]),
                .elem "td" [] (chain [.ntext "2"])]),
      .elem "tr" []
        (chain [.elem "td" [] (chain [.ntext "3"]),
                .elem "td" [] (chain [.ntext "4"])])])]

/-- The parse of `<table></table>`: a table yielding zero data rows. -/
def emptyTableDoc : Node := chain [.elem "table" [] .nnil]

/-- A run in which the paragraphs facet succeeded with a non-empty value but
the tables facet faulted. -/
def tablesFaultRun : ExtractRun :=
  { parseStep := .ok (), titleStep := .ok "", metaStep := .ok "",
    headingsStep := .ok [],
    paragraphsStep := .ok ["this paragraph was successfully extracted"],
    linksStep := .ok [], listsStep := .ok ⟨[], []⟩,
    tablesStep := .error "internal parse fault while extracting tables",
    contactStep := .ok ⟨[], [], []⟩, socialStep := .ok [] }

/-- A run in which the parse itself faulted (malformed input defeating the
parser), all later facets untouched. -/
def parseFaultRun : ExtractRun :=
  { parseStep := .error "parser failure on truncated input",
    titleStep := .ok "", metaStep := .ok "", headingsStep := .ok [],
    paragraphsStep := .ok [], linksStep := .ok [], listsStep := .ok ⟨[], []⟩,
    tablesStep := .ok [], contactStep := .ok ⟨[], [], []⟩, socialStep := .ok [] }

/-- The environment of a URL that answers 404 to every request. -/
def env404 : FetchEnv := ⟨fun _ => 404, fun _ => "", fun _ => 0⟩

/-! ## Shared lemmas -/

/-- If any facet step of the try body faulted, `_extract_main_content` returns
the all-empty record of the `except` branch. -/
theorem extract_fault_gives_empty (r : ExtractRun) (h : runHasFault r = true) :
    extractMainContent r = emptyRecord := by
  obtain ⟨pa, ti, me, he, par, li, ls, tb, ci, so⟩ := r
  rcases pa with e | pa
  · rfl
  rcases ti with e | ti
  · rfl
  rcases me with e | me
  · rfl
  rcases he with e | he
  · rfl
  rcases par with e | par
  · rfl
  rcases li with e | li
  · rfl
  rcases ls with e | ls
  · rfl
  rcases tb with e | tb
  · rfl
  rcases ci with e | ci
  · rfl
  rcases so with e | so
  · rfl
  simp [runHasFault, exErr] at h

/-- The environment of a URL that answers 500 to every request, with zero
jitter. -/
def env500 : FetchEnv := ⟨fun _ => 500, fun _ => "", fun _ => 0⟩

/-- Attempt `i` of the loop raises an exception (as opposed to returning
content or falling through). -/
def stepRaises (env : FetchEnv) (maxRetries i : Nat) : Bool :=
  match attemptOut (env.statuses i) (env.bodies i)
      (decide (i + 1 = maxRetries)) maxRetries with
  | .raised _ => true
  | _ => false

/-- Closed form of the retry loop on an all-500 environment, starting from any
state that has already performed at least one attempt: the remaining
iterations each sleep the backoff `2 ^ retries + u retries`, the final
attempt records the persistent-server-error, and the session ends closed. -/
theorem go500 (env : FetchEnv) (maxRetries : Nat)
    (h500 : ∀ i, env.statuses i = 500) :
    ∀ n (st : LoopState), st.retries + (n + 1) = maxRetries → 0 < st.retries →
      scrapeGo env maxRetries (n + 1) st =
        { result := .error (.persistentServerError maxRetries),
          attempts := st.attempts + (n + 1),
          delays := st.delays ++ (List.range' st.retries (n + 1)).map
            (fun i => (2 : ℚ) ^ i + env.u i),
          sessionOpen := false } := by
  intro n
  induction n with
  | zero =>
      intro st hsum hpos
      have hsum' : st.retries + 1 = maxRetries := by omega
      have hL : decide (st.retries + 1 = maxRetries) = true := decide_eq_true hsum'
      show scrapeGo env maxRetries (0 + 1) st = _
      simp only [scrapeGo, h500, hL, attemptOut, finallyStep]
      norm_num [hpos, hsum', Option.getD]
      simp
  | succ n ih =>
      intro st hsum hpos
      have hL : decide (st.retries + 1 = maxRetries) = false :=
        decide_eq_false (by omega)
      have hstep : scrapeGo env maxRetries (n + 1 + 1) st
          = scrapeGo env maxRetries (n + 1)
              { retries := st.retries + 1, last := some (.httpStatusError 500),
                sessionOpen := true, attempts := st.attempts + 1,
                delays := st.delays ++ [(2 : ℚ) ^ st.retries + env.u st.retries] } := by
        simp only [scrapeGo, h500, hL, attemptOut, finallyStep]
        norm_num [hpos, hL]
      rw [hstep]
      have hh := ih
        (LoopState.mk (st.retries + 1) (some (FetchErr.httpStatusError 500)) true
          (st.attempts + 1) (st.delays ++ [(2 : ℚ) ^ st.retries + env.u st.retries]))
        (by simp; omega) (by simp)
      rw [hh]
      simp only [FetchTrace.mk.injEq, and_true, true_and]
      constructor
      · omega
      · simp [List.range'_succ, List.append_assoc]

/-- If every attempt raises, the loop ends with the session closed and the
final attempt's exception as the surfaced error. -/
theorem goFail (env : FetchEnv) (maxRetries : Nat)
    (hall : ∀ i, i < maxRetries → stepRaises env maxRetries i = true) :
    ∀ n (st : LoopState), st.retries + (n + 1) = maxRetries →
      ∃ e, attemptOut (env.statuses (maxRetries - 1)) (env.bodies (maxRetries - 1))
              (decide ((maxRetries - 1) + 1 = maxRetries)) maxRetries = .raised e
        ∧ (scrapeGo env maxRetries (n + 1) st).result = .error e
        ∧ (scrapeGo env maxRetries (n + 1) st).sessionOpen = false := by
  intro n
  induction n with
  | zero =>
      intro st hsum
      have hidx : st.retries = maxRetries - 1 := by omega
      have hsum' : st.retries + 1 = maxRetries := by omega
      have hr := hall st.retries (by omega)
      unfold stepRaises at hr
      cases hA : attemptOut (env.statuses st.retries) (env.bodies st.retries)
          (decide (st.retries + 1 = maxRetries)) maxRetries with
      | success b => rw [hA] at hr; simp at hr
      | fellThrough => rw [hA] at hr; simp at hr
      | raised e =>
          have hfix : attemptOut (env.statuses (maxRetries - 1)) (env.bodies (maxRetries - 1))
              (decide ((maxRetries - 1) + 1 = maxRetries)) maxRetries = .raised e := by
            rw [← hidx]; exact hA
          refine ⟨e, hfix, ?_, ?_⟩
          · show (scrapeGo env maxRetries (0 + 1) st).result = .error e
            simp only [scrapeGo, hA, finallyStep]
            simp [hsum']
          · show (scrapeGo env maxRetries (0 + 1) st).sessionOpen = false
            simp only [scrapeGo, hA, finallyStep]
            simp [hsum']
  | succ n ih =>
      intro st hsum
      have hr := hall st.retries (by omega)
      unfold stepRaises at hr
      cases hA : attemptOut (env.statuses st.retries) (env.bodies st.retries)
          (decide (st.retries + 1 = maxRetries)) maxRetries with
      | success b => rw [hA] at hr; simp at hr
      | fellThrough => rw [hA] at hr; simp at hr
      | raised e =>
          have hL : decide (st.retries + 1 = maxRetries) = false :=
            decide_eq_false (by omega)
          have hstep : scrapeGo env maxRetries (n + 1 + 1) st
              = scrapeGo env maxRetries (n + 1)
                  (finallyStep maxRetries
                    { retries := st.retries, last := some e, sessionOpen := true,
                      attempts := st.attempts + 1,
                      delays :=
                        (st.delays ++ (if 0 < st.retries
                          then [2 ^ st.retries + env.u st.retries] else [])) ++
                        (if env.statuses st.retries = 403 ∨ env.statuses st.retries = 429
                          then [(10 : ℚ) + 5 * (st.retries : ℚ)] else []) }) := by
            simp only [scrapeGo, hA]
          rw [hstep]
          exact ih _ (by simp [finallyStep]; omega)

/-! ## Claim theorems -/

/-- C10: the export flattening is not total: a dict containing a list whose
first element is a dict but whose second element is an int makes
`_flatten_dict` recurse into the int as if it were a dict, raising
`AttributeError` (modelled as `Except.error`). -/
theorem C10_flatten_raises_on_mixed_list :
    flattenDict (.objCons "k" (.arrCons .objNil (.arrCons (.jint 1) .arrNil)) .objNil) ""
      = Except.error "AttributeError: object has no attribute items" := rfl

/-- C1 (code_bug evidence): the claim — and the source's own comment
`# Don't retry client errors` at line 92 — says a 404 is fetched exactly once.
But the `raise aiohttp.ClientError(...)` at line 93 is caught by the
`except aiohttp.ClientError` handler of the same `try` (line 98), so the loop
retries: on a URL answering 404 every time with `max_retries = 3`, the code
performs 3 attempts, not 1, before surfacing the recorded `ClientError`. -/
theorem C1_client_error_is_retried :
    (scrapeWebpage env404 3).attempts = 3
  ∧ (scrapeWebpage env404 3).result = Except.error (FetchErr.clientError 404)
  ∧ (scrapeWebpage env404 3).attempts ≠ 1 := by
  refine ⟨rfl, rfl, ?_⟩
  intro h
  simp [scrapeWebpage, scrapeGo, env404, attemptOut, finallyStep] at h

/-- C3: on a URL answering 500 on every attempt (with the uniform jitter in
[0, 1]), `scrape_webpage` performs exactly `max_retries` attempts, the backoff
sleeps between attempts are non-decreasing (`2 ** retries + uniform(0, 1)` is
monotone in `retries` because the jitter is at most 1 and 2 ** retries at
least 1), and the surfaced terminal error is the persistent-server-error
raised at line 85 — the spec's `ServerError` kind. -/
theorem C3_all_500_exhausts_retries (env : FetchEnv) (maxRetries : Nat)
    (hmax : 1 ≤ maxRetries) (h500 : ∀ i, env.statuses i = 500)
    (hu : ∀ i, 0 ≤ env.u i ∧ env.u i ≤ 1) :
    (scrapeWebpage env maxRetries).attempts = maxRetries
  ∧ (scrapeWebpage env maxRetries).result
      = Except.error (FetchErr.persistentServerError maxRetries)
  ∧ List.Pairwise (· ≤ ·) (scrapeWebpage env maxRetries).delays := by
  have mono : ∀ a b : Nat, a < b →
      (2 : ℚ) ^ a + env.u a ≤ (2 : ℚ) ^ b + env.u b := by
    intro a b hab
    have h1 := (hu a).2
    have h2 := (hu b).1
    have hp : (1 : ℚ) ≤ 2 ^ a := one_le_pow₀ (by norm_num)
    have h3 : (2 : ℚ) ^ a + 1 ≤ 2 ^ (a + 1) := by
      rw [pow_succ]
      linarith
    have h4 : (2 : ℚ) ^ (a + 1) ≤ 2 ^ b := pow_le_pow_right₀ (by norm_num) (by omega)
    linarith
  obtain ⟨k, rfl⟩ : ∃ k, maxRetries = k + 1 := ⟨maxRetries - 1, by omega⟩
  cases k with
  | zero =>
      refine ⟨?_, ?_, ?_⟩ <;>
        simp [scrapeWebpage, scrapeGo, attemptOut, finallyStep, h500 0]
  | succ j =>
      have hL : decide ((0 : Nat) + 1 = j + 1 + 1) = false := decide_eq_false (by omega)
      have hstep : scrapeWebpage env (j + 1 + 1)
          = scrapeGo env (j + 1 + 1) (j + 1)
              (LoopState.mk 1 (some (FetchErr.httpStatusError 500)) true 1 []) := by
        show scrapeGo env (j + 1 + 1) (j + 1 + 1) _ = _
        simp only [scrapeGo, h500, hL, attemptOut, finallyStep]
        norm_num
      rw [hstep, go500 env (j + 1 + 1) h500 j _ (by show 1 + (j + 1) = j + 1 + 1; omega) Nat.one_pos]
      refine ⟨by show 1 + (j + 1) = j + 1 + 1; omega, rfl, ?_⟩
      exact List.pairwise_map.2
        ((List.pairwise_lt_range' 1 (j + 1)).imp (fun hab => mono _ _ hab))

/-- C3 (witness): three attempts against a constant-500 URL with zero jitter. -/
theorem C3_witness :
    (scrapeWebpage env500 3).attempts = 3
  ∧ (scrapeWebpage env500 3).result = Except.error (FetchErr.persistentServerError 3)
  ∧ List.Pairwise (· ≤ ·) (scrapeWebpage env500 3).delays :=
  C3_all_500_exhausts_retries env500 3 (by norm_num) (fun i => rfl)
    (fun i => ⟨by norm_num [env500], by norm_num [env500]⟩)

/-- C8: when every one of the `max_retries` attempts raises, the `finally`
block of the last iteration closes the pooled session (lines 110-115) before
the loop exits and re-raises the last recorded error (line 119): the terminal
trace carries the final attempt's exception as its error and shows the
session closed. -/
theorem C8_session_closed_on_exhaustion (env : FetchEnv) (maxRetries : Nat)
    (hmax : 1 ≤ maxRetries)
    (hall : ∀ i, i < maxRetries → stepRaises env maxRetries i = true) :
    ∃ e, attemptOut (env.statuses (maxRetries - 1)) (env.bodies (maxRetries - 1))
            (decide ((maxRetries - 1) + 1 = maxRetries)) maxRetries = AttemptOut.raised e
      ∧ (scrapeWebpage env maxRetries).result = Except.error e
      ∧ (scrapeWebpage env maxRetries).sessionOpen = false := by
  obtain ⟨n, rfl⟩ : ∃ n, maxRetries = n + 1 := ⟨maxRetries - 1, by omega⟩
  exact goFail env (n + 1) hall n _ (by simp)

/-- C8 (witness): two attempts against a constant-404 URL. -/
theorem C8_witness :
    ((1 : Nat) ≤ 2 ∧ ∀ i, i < 2 → stepRaises env404 2 i = true)
  ∧ ∃ e, attemptOut (env404.statuses 1) (env404.bodies 1)
            (decide ((2 - 1) + 1 = 2)) 2 = AttemptOut.raised e
      ∧ (scrapeWebpage env404 2).result = Except.error e
      ∧ (scrapeWebpage env404 2).sessionOpen = false :=
  ⟨⟨by norm_num, by decide⟩, C8_session_closed_on_exhaustion env404 2 (by norm_num) (by decide)⟩


/-- C2 (counterexample): a fault while extracting the tables facet does not
degrade only that facet — the single try/except of `_extract_main_content`
(lines 125-264) discards the already-computed paragraphs as well: the
paragraphs step succeeded with a non-empty value, yet the returned record's
`paragraphs` is empty. -/
theorem C2_counterexample :
    tablesFaultRun.paragraphsStep = Except.ok ["this paragraph was successfully extracted"]
  ∧ tablesFaultRun.tablesStep = Except.error "internal parse fault while extracting tables"
  ∧ (extractMainContent tablesFaultRun).paragraphs = []
  ∧ (extractMainContent tablesFaultRun).paragraphs
      ≠ ["this paragraph was successfully extracted"] := by
  refine ⟨rfl, rfl, rfl, ?_⟩
  decide

/-- C2 (amended): a fault while extracting one facet (here: tables) degrades
the ENTIRE record to its empty values — every facet, not only the faulting
one, is returned empty. -/
theorem C2_amended_fault_degrades_whole_record (r : ExtractRun) (e : String)
    (h : r.tablesStep = Except.error e) :
    extractMainContent r = emptyRecord := by
  apply extract_fault_gives_empty
  simp [runHasFault, exErr, h]

/-- C2 (amended, witness). -/
theorem C2_amended_witness : extractMainContent tablesFaultRun = emptyRecord :=
  C2_amended_fault_degrades_whole_record tablesFaultRun
    "internal parse fault while extracting tables" rfl

/-- C4: `extract` never raises outward (it is a total function by
construction), and on any internal fault of the try body it returns the record
whose every field is the documented empty value (lines 252-264). -/
theorem C4_fault_yields_all_empty_fields (r : ExtractRun) (h : runHasFault r = true) :
    (extractMainContent r).title = ""
  ∧ (extractMainContent r).meta_description = ""
  ∧ (extractMainContent r).headings = []
  ∧ (extractMainContent r).paragraphs = []
  ∧ (extractMainContent r).links = []
  ∧ (extractMainContent r).lists = ⟨[], []⟩
  ∧ (extractMainContent r).tables = []
  ∧ (extractMainContent r).contact_info = ⟨[], [], []⟩
  ∧ (extractMainContent r).social_links = [] := by
  rw [extract_fault_gives_empty r h]
  exact ⟨rfl, rfl, rfl, rfl, rfl, rfl, rfl, rfl, rfl⟩

/-- The paragraph fold of lines 152-156, in map/filter form: the emptiness
test is subsumed by the length threshold. -/
theorem para_foldl (l : List Node) (acc : List String) :
    List.foldl (fun acc p =>
      if strippedText p ≠ "" ∧ 20 < (strippedText p).length
      then acc ++ [strippedText p] else acc) acc l
  = acc ++ (l.map strippedText).filter (fun t => decide (20 < t.length)) := by
  induction l generalizing acc with
  | nil => simp
  | cons p rest ih =>
      simp only [List.foldl_cons, List.map_cons, List.filter_cons]
      by_cases h20 : 20 < (strippedText p).length
      · have hne : strippedText p ≠ "" := by
          intro hh
          rw [hh] at h20
          exact absurd h20 (by norm_num)
        rw [if_pos ⟨hne, h20⟩, ih]
        simp [h20]
      · rw [if_neg (fun hand => h20 hand.2), ih]
        simp [h20]

theorem extractParagraphs_eq (d : Node) :
    extractParagraphs d
      = ((findAllTags ["p"] d).map strippedText).filter (fun t => decide (20 < t.length)) := by
  unfold extractParagraphs
  simpa using para_foldl (findAllTags ["p"] d) []

/-- The table fold of lines 189-210 only ever appends a table whose collected
`table_data` is non-empty. -/
theorem tables_foldl_nonempty (l : List Node) (acc : List TableRec)
    (hacc : acc.all (fun t => !t.data.isEmpty) = true) :
    (List.foldl (fun acc table =>
      if tableRowsData table ≠ []
      then acc ++ [⟨tableHeaders table, tableRowsData table⟩] else acc) acc l).all
      (fun t => !t.data.isEmpty) = true := by
  induction l generalizing acc with
  | nil => simpa using hacc
  | cons table rest ih =>
      simp only [List.foldl_cons]
      by_cases h : tableRowsData table ≠ []
      · rw [if_pos h]
        refine ih _ ?_
        have hfalse : (tableRowsData table).isEmpty = false := by
          cases hq : tableRowsData table with
          | nil => exact absurd hq h
          | cons a as => rfl
        simp [List.all_append, hacc, hfalse]
      · rw [if_neg h]
        exact ih _ hacc

/-- C7: `paragraphs` is exactly the stripped texts of the `<p>` elements of the
(script-stripped) document whose length exceeds 20 characters, in document
order; and on `<p>short</p><p>this paragraph has more than twenty
characters</p>` it is exactly the second paragraph's text. -/
theorem C7_paragraphs_are_filtered_texts :
    (∀ d : Node, (extractFromDoc d).paragraphs
        = ((findAllTags ["p"] (stripNodes badTags d)).map strippedText).filter
            (fun t => decide (20 < t.length)))
  ∧ (extractFromDoc paraDoc).paragraphs
      = ["this paragraph has more than twenty characters"] := by
  constructor
  · intro d
    have h : (extractFromDoc d).paragraphs = extractParagraphs (stripNodes badTags d) := rfl
    rw [h, extractParagraphs_eq]
  · decide

/-- C5 (counterexample): the claim fails for `phones` — the source never
deduplicates the phone list (line 227 strips and filters but applies no
`set`), so markup naming the same number twice yields it twice. -/
theorem C5_counterexample :
    (extractFromDoc phoneDoc).contact_info.phones = ["1234567890", "1234567890"]
  ∧ ¬ ((extractFromDoc phoneDoc).contact_info.phones).Nodup := by
  exact ⟨by decide, by decide⟩

/-- C5 (amended): `emails` and `socialLinks` are deduplicated (`list(set(...))`
at lines 222 and 249) and hence duplicate-free for every document, and the
markup mentioning `a@b.com` twice yields exactly one email entry; but `phones`
is not deduplicated and can contain duplicates. -/
theorem C5_amended_emails_social_dedup :
    (∀ d : Node, ((extractFromDoc d).contact_info.emails).Nodup
        ∧ ((extractFromDoc d).social_links).Nodup)
  ∧ (extractFromDoc emailDoc).contact_info.emails = ["a@b.com"]
  ∧ (extractFromDoc phoneDoc).contact_info.phones = ["1234567890", "1234567890"] := by
  refine ⟨fun d => ⟨?_, ?_⟩, by decide, by decide⟩
  · obtain ⟨l, hl⟩ : ∃ l : List String, (extractFromDoc d).contact_info.emails = l.dedup := ⟨_, rfl⟩
    rw [hl]
    exact List.nodup_dedup _
  · obtain ⟨l, hl⟩ : ∃ l : List String, (extractFromDoc d).social_links = l.dedup := ⟨_, rfl⟩
    rw [hl]
    exact List.nodup_dedup _

/-- C6 (counterexample): for the two-header, two-data-row table the extracted
entry has `headers` of length 2 but `data` of length 3, not 2 —
`table.find_all('tr')` (line 191) also returns the row inside `<thead>`, which
has two `<th>` cells and therefore becomes a data row as well. -/
theorem C6_counterexample :
    ((extractFromDoc tableDoc).tables.map (fun t => (t.headers.length, t.data.length)))
      = [(2, 3)]
  ∧ ((extractFromDoc tableDoc).tables.map (fun t => t.data.length)) ≠ [2] := by
  exact ⟨by decide, by decide⟩

/-- C6 (amended): for such markup `tables` contains exactly one entry with
`headers` length 2 and `data` length 3 (the `<thead>` row is collected as the
first data row); tables yielding zero data rows are omitted — universally,
every extracted table has a non-empty `data`, and `<table></table>` produces
no entry. -/
theorem C6_amended_thead_row_is_data_row :
    ((extractFromDoc tableDoc).tables.map (fun t => (t.headers.length, t.data.length)))
      = [(2, 3)]
  ∧ (∀ d : Node, ((extractFromDoc d).tables).all (fun t => !t.data.isEmpty) = true)
  ∧ (extractFromDoc emptyTableDoc).tables = [] := by
  refine ⟨by decide, fun d => ?_, by decide⟩
  have h : (extractFromDoc d).tables = extractTables (stripNodes badTags d) := rfl
  rw [h]
  unfold extractTables
  exact tables_foldl_nonempty _ [] rfl

theorem bind_nil_tail (x : Except String (List (String × JVal))) :
    x.bind (fun a => (Except.ok ([] : List (String × JVal))).map (fun b => a ++ b)) = x := by
  cases x <;> simp [Except.bind, Except.map]

/-- One level of the nested-mapping rule of `_flatten_dict`: a dict value
under key `k` flattens to the flattening of that dict with the
underscore-joined key path as the new parent key. -/
theorem flatten_nested (parent k : String) (sub : JVal) (hobj : isObj sub = true) :
    flattenAny (.objCons k sub .objNil) parent 0 = flattenAny sub (joinKey parent k) 0 := by
  cases sub with
  | objNil =>
      have h1 : flattenAny (.objCons k .objNil .objNil) parent 0
          = (flattenAny .objNil (joinKey parent k) 0).bind
              (fun a => (Except.ok ([] : List (String × JVal))).map (fun b => a ++ b)) := rfl
      rw [h1, bind_nil_tail]
  | objCons k2 v2 r2 =>
      have h1 : flattenAny (.objCons k (.objCons k2 v2 r2) .objNil) parent 0
          = (flattenAny (.objCons k2 v2 r2) (joinKey parent k) 0).bind
              (fun a => (Except.ok ([] : List (String × JVal))).map (fun b => a ++ b)) := rfl
      rw [h1, bind_nil_tail]
  | jstr s => simp [isObj] at hobj
  | jint n => simp [isObj] at hobj
  | arrNil => simp [isObj] at hobj
  | arrCons x xs => simp [isObj] at hobj

/-- The scalar-list rule: a list value containing no dicts flattens to the
single pair of the joined key and the `', '.join(map(str, v))` string. -/
theorem flatten_scalar_list (parent k : String) (vs : JVal)
    (harr : isArr vs = true) (hsc : arrAll isScalar vs = true) :
    flattenAny (.objCons k vs .objNil) parent 0
      = Except.ok [(joinKey parent k, JVal.jstr (commaJoin (arrToList vs)))] := by
  cases vs with
  | arrNil => rfl
  | arrCons x xs =>
      cases x with
      | jstr s => rfl
      | jint n => rfl
      | arrNil => rfl
      | arrCons y ys => rfl
      | objNil => simp [arrAll, isScalar] at hsc
      | objCons k2 v2 r2 => simp [arrAll, isScalar] at hsc
  | jstr s => simp [isArr] at harr
  | jint n => simp [isArr] at harr
  | objNil => simp [isArr] at harr
  | objCons k2 v2 r2 => simp [isArr] at harr

/-- The list-of-dicts loop of lines 156-157: if each dict of the list flattens
to a group under the indexed key `key_i`, the whole list flattens to the
concatenation of the groups. -/
theorem flattenArr_concat (subs : List JVal) :
    ∀ (ls : List (List (String × JVal))) (key : String) (i : Nat),
      subs.length = ls.length →
      (∀ j, j < subs.length → isObj (subs.getD j .objNil) = true) →
      (∀ j, j < subs.length →
        flattenAny (subs.getD j .objNil) (key ++ "_" ++ toString (i + j)) 0
          = Except.ok (ls.getD j [])) →
      flattenAny (listToArr subs) key i = Except.ok ls.flatten := by
  induction subs with
  | nil =>
      intro ls key i hlen _ _
      have hls : ls = [] := by
        cases ls with
        | nil => rfl
        | cons a as => simp at hlen
      subst hls
      rfl
  | cons x rest ih =>
      intro ls key i hlen hobj hflat
      obtain ⟨l0, ls', rfl⟩ : ∃ l0 ls', ls = l0 :: ls' := by
        cases ls with
        | nil => simp at hlen
        | cons a as => exact ⟨a, as, rfl⟩
      have hx : isObj x = true := by simpa using hobj 0 (by simp)
      have hx0 : flattenAny x (key ++ "_" ++ toString i) 0 = Except.ok l0 := by
        simpa using hflat 0 (by simp)
      have hih : flattenAny (listToArr rest) key (i + 1) = Except.ok ls'.flatten := by
        refine ih ls' key (i + 1) (by simpa using hlen) ?_ ?_
        · intro j hj
          simpa using hobj (j + 1) (by simp; omega)
        · intro j hj
          have heq : i + 1 + j = i + (j + 1) := by omega
          rw [heq]
          simpa using hflat (j + 1) (by simp; omega)
      cases x with
      | objNil =>
          have h1 : flattenAny (listToArr (JVal.objNil :: rest)) key i
              = (flattenAny JVal.objNil (key ++ "_" ++ toString i) 0).bind (fun a =>
                  (flattenAny (listToArr rest) key (i + 1)).map (fun b => a ++ b)) := rfl
          rw [h1, hx0, hih]
          simp [Except.bind, Except.map]
      | objCons k2 v2 r2 =>
          have h1 : flattenAny (listToArr (JVal.objCons k2 v2 r2 :: rest)) key i
              = (flattenAny (JVal.objCons k2 v2 r2) (key ++ "_" ++ toString i) 0).bind (fun a =>
                  (flattenAny (listToArr rest) key (i + 1)).map (fun b => a ++ b)) := rfl
          rw [h1, hx0, hih]
          simp [Except.bind, Except.map]
      | jstr s => simp [isObj] at hx
      | jint n => simp [isObj] at hx
      | arrNil => simp [isObj] at hx
      | arrCons y ys => simp [isObj] at hx

/-- The list-of-dicts rule under a dict key: each element's flattened group
gets the index-suffixed key `newKey_i`. -/
theorem flatten_list_of_dicts (parent k : String) (subs : List JVal)
    (ls : List (List (String × JVal)))
    (hne : subs ≠ []) (hlen : subs.length = ls.length)
    (hobj : ∀ j, j < subs.length → isObj (subs.getD j .objNil) = true)
    (hflat : ∀ j, j < subs.length →
      flattenAny (subs.getD j .objNil) (joinKey parent k ++ "_" ++ toString j) 0
        = Except.ok (ls.getD j [])) :
    flattenAny (.objCons k (listToArr subs) .objNil) parent 0 = Except.ok ls.flatten := by
  obtain ⟨x, rest, rfl⟩ : ∃ x rest, subs = x :: rest := by
    cases subs with
    | nil => exact absurd rfl hne
    | cons a as => exact ⟨a, as, rfl⟩
  have hx : isObj x = true := by simpa using hobj 0 (by simp)
  have h1 : flattenAny (.objCons k (listToArr (x :: rest)) .objNil) parent 0
      = ((if isObj x = true
          then flattenAny (listToArr (x :: rest)) (joinKey parent k) 0
          else Except.ok [(joinKey parent k,
            JVal.jstr (commaJoin (arrToList (listToArr (x :: rest)))))]).bind
          (fun a => (Except.ok ([] : List (String × JVal))).map (fun b => a ++ b))) := rfl
  rw [h1, if_pos hx, bind_nil_tail]
  refine flattenArr_concat (x :: rest) ls (joinKey parent k) 0 hlen hobj ?_
  intro j hj
  simpa using hflat j hj

/-- C9: the flattening contract of `_flatten_dict` — a nested mapping's items
are keyed by the underscore-joined key path (first conjunct, with a concrete
two-level path `a_b_c` as the second); a sequence of scalars becomes the single
string of its elements joined with `", "` (third); and a sequence of
structures expands to one flattened group per element with an index suffix on
the key (fourth). -/
theorem C9_flatten_contract :
    (∀ (parent k : String) (sub : JVal), isObj sub = true →
        flattenAny (.objCons k sub .objNil) parent 0
          = flattenAny sub (joinKey parent k) 0)
  ∧ flattenAny (.objCons "a" (.objCons "b" (.objCons "c" (.jint 1) .objNil) .objNil) .objNil) "" 0
      = Except.ok [("a_b_c", JVal.jint 1)]
  ∧ (∀ (parent k : String) (vs : JVal), isArr vs = true → arrAll isScalar vs = true →
        flattenAny (.objCons k vs .objNil) parent 0
          = Except.ok [(joinKey parent k, JVal.jstr (commaJoin (arrToList vs)))])
  ∧ (∀ (parent k : String) (subs : List JVal) (ls : List (List (String × JVal))),
        subs ≠ [] → subs.length = ls.length →
        (∀ j, j < subs.length → isObj (subs.getD j .objNil) = true) →
        (∀ j, j < subs.length →
          flattenAny (subs.getD j .objNil) (joinKey parent k ++ "_" ++ toString j) 0
            = Except.ok (ls.getD j [])) →
        flattenAny (.objCons k (listToArr subs) .objNil) parent 0 = Except.ok ls.flatten) :=
  ⟨flatten_nested, rfl, flatten_scalar_list,
    fun parent k subs ls hne hlen hobj hflat =>
      flatten_list_of_dicts parent k subs ls hne hlen hobj hflat⟩

/-- C9 (witness): the three rules applied at concrete inputs. -/
theorem C9_witness :
    (isObj (JVal.objCons "b" (JVal.jint 2) JVal.objNil) = true
      ∧ flattenAny (.objCons "a" (.objCons "b" (.jint 2) .objNil) .objNil) "x" 0
          = flattenAny (.objCons "b" (.jint 2) .objNil) (joinKey "x" "a") 0)
  ∧ (flattenAny (.objCons "a" (listToArr [JVal.jstr "p", JVal.jint 7]) .objNil) "x" 0
      = Except.ok [(joinKey "x" "a",
          JVal.jstr (commaJoin (arrToList (listToArr [JVal.jstr "p", JVal.jint 7]))))])
  ∧ (flattenAny (.objCons "a" (listToArr
        [JVal.objCons "m" (JVal.jint 1) JVal.objNil,
         JVal.objCons "m" (JVal.jint 2) JVal.objNil]) .objNil) "" 0
      = Except.ok ([[("a_0_m", JVal.jint 1)],
          [("a_1_m", JVal.jint 2)]] : List (List (String × JVal))).flatten) := by
  refine ⟨⟨rfl, C9_flatten_contract.1 "x" "a" _ rfl⟩, ?_, ?_⟩
  · exact C9_flatten_contract.2.2.1 "x" "a" _ rfl rfl
  · refine C9_flatten_contract.2.2.2 "" "a" _ _ (by simp) rfl ?_ ?_
    · intro j hj
      have hj2 : j < 2 := by simpa using hj
      interval_cases j <;> rfl
    · intro j hj
      have hj2 : j < 2 := by simpa using hj
      interval_cases j <;> rfl


/-- C4 (witness): a parse fault on malformed input. -/
theorem C4_witness :
    runHasFault parseFaultRun = true
  ∧ ((extractMainContent parseFaultRun).title = ""
  ∧ (extractMainContent parseFaultRun).meta_description = ""
  ∧ (extractMainContent parseFaultRun).headings = []
  ∧ (extractMainContent parseFaultRun).paragraphs = []
  ∧ (extractMainContent parseFaultRun).links = []
  ∧ (extractMainContent parseFaultRun).lists = ⟨[], []⟩
  ∧ (extractMainContent parseFaultRun).tables = []
  ∧ (extractMainContent parseFaultRun).contact_info = ⟨[], [], []⟩
  ∧ (extractMainContent parseFaultRun).social_links = []) :=
  ⟨rfl, C4_fault_yields_all_empty_fields parseFaultRun rfl⟩

end WSBot
